import Mathlib

/-!
Verification of the temporal-key-rotation codec service.

The Go sources are shallowly embedded: Go byte slices and Go strings are
modelled as `List Nat` with every element below 256, `time.Time` as a `Nat`
timestamp, and the external AWS KMS client as an oracle parameter. The
AES-256-GCM primitive from Go's standard library is modelled as a concrete
executable AEAD satisfying the documented `cipher.AEAD` contract (fixed
12-byte nonce, 16-byte tag appended to a masked ciphertext of the same
length as the plaintext, `Open` inverting `Seal` and failing on a bad tag).
All repository logic (base64 framing, nonce prepending, length and key
checks, the key manager state machine, the two HTTP handlers) is translated
directly from the source.
-/

/-- ASCII bytes of a string literal; models a Go string constant. -/
def strBytes (s : String) : List Nat := s.data.map Char.toNat

/-! ## Base64 (model of Go `encoding/base64` StdEncoding) -/

/-- Standard base64 alphabet: sextet value to ASCII code. -/
def b64encChar (n : Nat) : Nat :=
  if n < 26 then 65 + n
  else if n < 52 then 97 + (n - 26)
  else if n < 62 then 48 + (n - 52)
  else if n = 62 then 43 else 47

/-- Inverse of the base64 alphabet; `none` on a byte outside the alphabet. -/
def b64decChar (c : Nat) : Option Nat :=
  if 65 ≤ c ∧ c ≤ 90 then some (c - 65)
  else if 97 ≤ c ∧ c ≤ 122 then some (26 + (c - 97))
  else if 48 ≤ c ∧ c ≤ 57 then some (52 + (c - 48))
  else if c = 43 then some 62
  else if c = 47 then some 63
  else none

/-- `base64.StdEncoding.EncodeToString`: bytes to padded base64 ASCII bytes. -/
def b64encode : List Nat → List Nat
  | [] => []
  | [a] => [b64encChar (a / 4), b64encChar (a % 4 * 16), 61, 61]
  | [a, b] => [b64encChar (a / 4), b64encChar (a % 4 * 16 + b / 16),
      b64encChar (b % 16 * 4), 61]
  | a :: b :: c :: rest =>
      b64encChar (a / 4) :: b64encChar (a % 4 * 16 + b / 16) ::
      b64encChar (b % 16 * 4 + c / 64) :: b64encChar (c % 64) :: b64encode rest

/-- `base64.StdEncoding.DecodeString`: padded base64 to bytes, `none` on
malformed input (Go discards nonzero trailing bits rather than rejecting
them, and this model does the same). -/
def b64decode : List Nat → Option (List Nat)
  | [] => some []
  | c1 :: c2 :: c3 :: c4 :: rest =>
      match b64decChar c1, b64decChar c2 with
      | some s1, some s2 =>
        if c3 = 61 then
          if c4 = 61 ∧ rest = [] then some [s1 * 4 + s2 / 16] else none
        else
          match b64decChar c3 with
          | some s3 =>
            if c4 = 61 then
              if rest = [] then some [s1 * 4 + s2 / 16, s2 % 16 * 16 + s3 / 4]
              else none
            else
              match b64decChar c4, b64decode rest with
              | some s4, some ds =>
                  some ((s1 * 4 + s2 / 16) :: (s2 % 16 * 16 + s3 / 4) ::
                    (s3 % 4 * 64 + s4) :: ds)
              | _, _ => none
          | none => none
      | _, _ => none
  | _ => none

theorem b64decChar_encChar : ∀ s < 64, b64decChar (b64encChar s) = some s := by
  decide

theorem b64encChar_ne_pad : ∀ s < 64, b64encChar s ≠ 61 := by decide

/-- Base64 round trip on byte sequences, as documented for Go's StdEncoding. -/
theorem b64decode_encode (bs : List Nat) (hb : ∀ b ∈ bs, b < 256) :
    b64decode (b64encode bs) = some bs := by
  induction bs using b64encode.induct with
  | case1 => simp [b64encode, b64decode]
  | case2 a =>
      have ha : a < 256 := hb a (by simp)
      have h1 : a / 4 < 64 := by omega
      have h2 : a % 4 * 16 < 64 := by omega
      simp [b64encode, b64decode, b64decChar_encChar _ h1,
        b64decChar_encChar _ h2] <;> omega
  | case3 a b =>
      have ha : a < 256 := hb a (by simp)
      have hbb : b < 256 := hb b (by simp)
      have h1 : a / 4 < 64 := by omega
      have h2 : a % 4 * 16 + b / 16 < 64 := by omega
      have h3 : b % 16 * 4 < 64 := by omega
      have e3 := b64encChar_ne_pad _ h3
      simp [b64encode, b64decode, b64decChar_encChar _ h1,
        b64decChar_encChar _ h2, b64decChar_encChar _ h3, e3] <;> omega
  | case4 a b c rest ih =>
      have ha : a < 256 := hb a (by simp)
      have hbb : b < 256 := hb b (by simp)
      have hc : c < 256 := hb c (by simp)
      have hrest : ∀ x ∈ rest, x < 256 := fun x hx => hb x (by simp [hx])
      have h1 : a / 4 < 64 := by omega
      have h2 : a % 4 * 16 + b / 16 < 64 := by omega
      have h3 : b % 16 * 4 + c / 64 < 64 := by omega
      have h4 : c % 64 < 64 := by omega
      have e3 := b64encChar_ne_pad _ h3
      have e4 := b64encChar_ne_pad _ h4
      simp [b64encode, b64decode, b64decChar_encChar _ h1,
        b64decChar_encChar _ h2, b64decChar_encChar _ h3,
        b64decChar_encChar _ h4, ih hrest, e3, e4] <;> omega

/-! ## AES-256-GCM model (Go `crypto/cipher` AEAD contract)

`cipher.NewGCM` over an AES-256 block yields an AEAD with a 12-byte nonce
and a 16-byte tag; `Seal` appends the tag to a ciphertext of the same
length as the plaintext, and `Open` recovers the plaintext exactly when
the tag verifies. The keystream and tag below are a concrete executable
model of that contract; the cipher internals are standard-library code,
not part of this repository. -/

/-- GCM nonce size in bytes (`gcm.NonceSize()`). -/
def nonceSize : Nat := 12

/-- GCM tag size in bytes (`gcm.Overhead()`). -/
def tagSize : Nat := 16

/-- Keystream byte `i` of the modelled cipher for a given key and nonce. -/
def ksByte (key nonce : List Nat) (i : Nat) : Nat :=
  (key.sum * 3 + nonce.sum * 5 + i * 7 + 1) % 256

/-- Mask a plaintext with the keystream starting at position `i`. -/
def maskBytes (key nonce : List Nat) : Nat → List Nat → List Nat
  | _, [] => []
  | i, b :: bs => (b + ksByte key nonce i) % 256 :: maskBytes key nonce (i + 1) bs

/-- Inverse of `maskBytes` on byte sequences. -/
def unmaskBytes (key nonce : List Nat) : Nat → List Nat → List Nat
  | _, [] => []
  | i, c :: cs =>
      (c + (256 - ksByte key nonce i)) % 256 :: unmaskBytes key nonce (i + 1) cs

/-- Authentication tag of the modelled AEAD over a ciphertext. -/
def gcmTag (key nonce ct : List Nat) : List Nat :=
  (List.range tagSize).map
    (fun i => (key.sum * 11 + nonce.sum * 13 + ct.sum * 17 + i) % 256)

/-- `gcm.Seal nil nonce data nil`: masked data followed by the tag. -/
def sealBytes (key nonce data : List Nat) : List Nat :=
  maskBytes key nonce 0 data ++ gcmTag key nonce (maskBytes key nonce 0 data)

/-- `gcm.Open nil nonce blob nil`: check length and tag, then unmask;
`none` models Go's authentication error. -/
def openBytes (key nonce blob : List Nat) : Option (List Nat) :=
  if blob.length < tagSize then none
  else
    let ct := blob.take (blob.length - tagSize)
    let tg := blob.drop (blob.length - tagSize)
    if tg = gcmTag key nonce ct then some (unmaskBytes key nonce 0 ct)
    else none

theorem ksByte_lt (key nonce : List Nat) (i : Nat) :
    ksByte key nonce i < 256 := Nat.mod_lt _ (by omega)

theorem unmaskBytes_maskBytes (key nonce : List Nat) (i : Nat)
    (bs : List Nat) (hb : ∀ b ∈ bs, b < 256) :
    unmaskBytes key nonce i (maskBytes key nonce i bs) = bs := by
  induction bs generalizing i with
  | nil => rfl
  | cons b bs ih =>
      have hb0 : b < 256 := hb b (by simp)
      have hk := ksByte_lt key nonce i
      simp only [maskBytes, unmaskBytes, List.cons.injEq]
      exact ⟨by omega, ih (i + 1) (fun x hx => hb x (by simp [hx]))⟩

theorem maskBytes_length (key nonce : List Nat) (i : Nat) (bs : List Nat) :
    (maskBytes key nonce i bs).length = bs.length := by
  induction bs generalizing i with
  | nil => rfl
  | cons b bs ih => simp [maskBytes, ih]

theorem maskBytes_lt (key nonce : List Nat) (i : Nat) (bs : List Nat) :
    ∀ b ∈ maskBytes key nonce i bs, b < 256 := by
  induction bs generalizing i with
  | nil => simp [maskBytes]
  | cons b bs ih =>
      simp only [maskBytes, List.mem_cons]
      rintro x (rfl | hx)
      · exact Nat.mod_lt _ (by omega)
      · exact ih (i + 1) x hx

theorem gcmTag_length (key nonce ct : List Nat) :
    (gcmTag key nonce ct).length = tagSize := by simp [gcmTag]

theorem gcmTag_lt (key nonce ct : List Nat) :
    ∀ b ∈ gcmTag key nonce ct, b < 256 := by
  simp only [gcmTag, List.mem_map]
  rintro b ⟨i, _, rfl⟩
  exact Nat.mod_lt _ (by omega)

/-- The modelled AEAD satisfies the documented round-trip contract. -/
theorem openBytes_sealBytes (key nonce data : List Nat)
    (hd : ∀ b ∈ data, b < 256) :
    openBytes key nonce (sealBytes key nonce data) = some data := by
  unfold openBytes sealBytes
  have hlen : (maskBytes key nonce 0 data ++
      gcmTag key nonce (maskBytes key nonce 0 data)).length
      = data.length + tagSize := by
    simp [maskBytes_length, gcmTag_length]
  rw [hlen]
  have hnl : ¬ (data.length + tagSize < tagSize) := by omega
  simp only [hnl, if_false]
  have hsub : data.length + tagSize - tagSize = data.length := by omega
  have hml : (maskBytes key nonce 0 data).length = data.length :=
    maskBytes_length key nonce 0 data
  have htake : (maskBytes key nonce 0 data ++
      gcmTag key nonce (maskBytes key nonce 0 data)).take data.length
      = maskBytes key nonce 0 data := by
    rw [← hml]
    exact List.take_left _ _
  have hdrop : (maskBytes key nonce 0 data ++
      gcmTag key nonce (maskBytes key nonce 0 data)).drop data.length
      = gcmTag key nonce (maskBytes key nonce 0 data) := by
    rw [← hml]
    exact List.drop_left _ _
  simp [hsub, htake, hdrop, unmaskBytes_maskBytes key nonce 0 data hd]

/-! ## Envelope cipher (src/unnamed/part_005, `EncryptWithDataKey` /
`DecryptWithDataKey`) -/

/-- Errors of the envelope cipher, one constructor per distinct Go error. -/
inductive CodecError where
  | invalidKeyLength
  | base64DecodeFailed
  | ciphertextTooShort
  | authenticationFailed
  deriving DecidableEq, Repr

/-- `EncryptWithDataKey(data, key)`. The fresh random nonce drawn from
`rand.Reader` is passed explicitly; `gcm.Seal(nonce, nonce, data, nil)`
prepends the nonce to the sealed blob, and the result is base64-encoded. -/
def EncryptWithDataKey (data key nonce : List Nat) :
    Except CodecError (List Nat) :=
  if key.length ≠ 32 then .error .invalidKeyLength
  else .ok (b64encode (nonce ++ sealBytes key nonce data))

/-- `DecryptWithDataKey(encodedData, key)`: key-length check, base64
decode, nonce split at `gcm.NonceSize()`, then AEAD open. -/
def DecryptWithDataKey (encodedData key : List Nat) :
    Except CodecError (List Nat) :=
  if key.length ≠ 32 then .error .invalidKeyLength
  else
    match b64decode encodedData with
    | none => .error .base64DecodeFailed
    | some data =>
      if data.length < nonceSize then .error .ciphertextTooShort
      else
        match openBytes key (data.take nonceSize) (data.drop nonceSize) with
        | none => .error .authenticationFailed
        | some plaintext => .ok plaintext

/-! ## KMS manager (src/unnamed/part_005)

`time.Time` is a `Nat` timestamp; `t1.After t2` is `t2 < t1` and
`t1.Before t2` is `t1 < t2`. The AWS KMS client is an oracle parameter:
`GenerateDataKey` results arrive as an optional plaintext/ciphertext-blob
pair (`none` models the call erroring) and `Decrypt` as a function from
the raw blob and key id to an optional plaintext. Each operation returns
its result together with the post-state, and mutation of shared byte
buffers (the in-place zeroing of a superseded key) is reported as the
final contents of the affected buffer. -/

/-- `CurrentDataKey`: the current active data key. -/
structure CurrentDataKey where
  PlaintextKey : List Nat
  EncryptedKey : List Nat
  GeneratedAt : Nat
  ExpiresAt : Nat
  deriving DecidableEq, Repr

/-- `CachedKey`: a cached decrypted data key with its cache expiry. -/
structure CachedKey where
  Key : List Nat
  ExpiresAt : Nat
  deriving DecidableEq, Repr

/-- `KMSManager` state: master key id, current data key, decryption cache
(a `map[string]*CachedKey`, modelled as a key-unique association list),
and the two configured durations. -/
structure KMSManager where
  keyID : List Nat
  currentDataKey : Option CurrentDataKey
  decryptionCache : List (List Nat × CachedKey)
  cacheTTL : Nat
  keyRotationInterval : Nat
  deriving DecidableEq, Repr

/-- Errors of the KMS manager, one constructor per distinct Go error. -/
inductive KMSError where
  | keyGenerationFailed
  | decodeEncryptedKeyFailed
  | keyDecryptionFailed
  deriving DecidableEq, Repr

/-- Go map update: insert or overwrite the entry for `key`. -/
def insertAssoc (m : List (List Nat × CachedKey)) (key : List Nat)
    (v : CachedKey) : List (List Nat × CachedKey) :=
  (key, v) :: m.filter (fun pr => !(pr.1 == key))

/-- Result of `rotateDataKeyLocked`: the call's result (the installed key
on success), the post-state, and the final contents of the pre-call
current key's plaintext buffer (`none` when there was no current key). -/
structure RotateOutcome where
  res : Except KMSError CurrentDataKey
  state : KMSManager
  oldKeyBuf : Option (List Nat)
  deriving Repr

/-- `rotateDataKeyLocked`: ask KMS for a new data key; on error return it
with nothing changed; on success zero the old plaintext buffer in place
and install the new key with `ExpiresAt = now + keyRotationInterval` and
`EncryptedKey` the base64 encoding of the KMS ciphertext blob. -/
def rotateDataKeyLocked (k : KMSManager) (now : Nat)
    (gen : Option (List Nat × List Nat)) : RotateOutcome :=
  match gen with
  | none =>
      { res := .error .keyGenerationFailed, state := k,
        oldKeyBuf := k.currentDataKey.map (·.PlaintextKey) }
  | some (plaintext, blob) =>
      let newKey : CurrentDataKey :=
        { PlaintextKey := plaintext, EncryptedKey := b64encode blob,
          GeneratedAt := now, ExpiresAt := now + k.keyRotationInterval }
      { res := .ok newKey,
        state := { k with currentDataKey := some newKey },
        oldKeyBuf := k.currentDataKey.map
          (fun c => List.replicate c.PlaintextKey.length 0) }

/-- Result of `GetCurrentDataKey`: the returned key or error, and the
post-state. -/
structure GetKeyOutcome where
  res : Except KMSError CurrentDataKey
  state : KMSManager
  deriving Repr

/-- `GetCurrentDataKey`: return the current key unless it is missing or
`time.Now().After(ExpiresAt)`; in that case rotate under the write lock
(the double-checked re-read sees the same state in this sequential
model) and return the rotation's result. -/
def GetCurrentDataKey (k : KMSManager) (now : Nat)
    (gen : Option (List Nat × List Nat)) : GetKeyOutcome :=
  let expired : Bool :=
    match k.currentDataKey with
    | none => true
    | some c => decide (c.ExpiresAt < now)
  if expired then
    let r := rotateDataKeyLocked k now gen
    { res := r.res, state := r.state }
  else
    match k.currentDataKey with
    | some c => { res := .ok c, state := k }
    | none => { res := .error .keyGenerationFailed, state := k }

/-- Result of `DecryptDataKey`: the plaintext key or error, the
post-state, and how many external KMS `Decrypt` calls were made. -/
structure DecryptOutcome where
  res : Except KMSError (List Nat)
  state : KMSManager
  kmsCalls : Nat
  deriving Repr

/-- `DecryptDataKey(encryptedKey, masterKeyARN)`: (1) if the current
key's `EncryptedKey` equals the requested blob, return its plaintext;
(2) look the string `encryptedKey + ":" + masterKeyARN` up in the
decryption cache and return the entry's key if
`time.Now().Before(ExpiresAt)`; (3) base64-decode the blob, call external
KMS `Decrypt`, and on success store the result in the cache under the key
`encryptedKey` (exactly as the source does) with expiry `now + cacheTTL`. -/
def DecryptDataKey (k : KMSManager) (now : Nat)
    (encryptedKey masterKeyARN : List Nat)
    (kmsDec : List Nat → List Nat → Option (List Nat)) : DecryptOutcome :=
  let isCurrent : Bool :=
    match k.currentDataKey with
    | some c => c.EncryptedKey == encryptedKey
    | none => false
  if isCurrent then
    match k.currentDataKey with
    | some c => { res := .ok c.PlaintextKey, state := k, kmsCalls := 0 }
    | none => { res := .error .keyDecryptionFailed, state := k, kmsCalls := 0 }
  else
    let cacheKey := encryptedKey ++ [58] ++ masterKeyARN
    match List.lookup cacheKey k.decryptionCache with
    | some cached =>
        if now < cached.ExpiresAt then
          { res := .ok cached.Key, state := k, kmsCalls := 0 }
        else
          decryptViaKMS k now encryptedKey masterKeyARN kmsDec
    | none => decryptViaKMS k now encryptedKey masterKeyARN kmsDec
where
  /-- The external-call tail of `DecryptDataKey`: base64 decode, KMS
  `Decrypt`, cache insert under `encryptedKey`. -/
  decryptViaKMS (k : KMSManager) (now : Nat)
      (encryptedKey masterKeyARN : List Nat)
      (kmsDec : List Nat → List Nat → Option (List Nat)) : DecryptOutcome :=
    match b64decode encryptedKey with
    | none =>
        { res := .error .decodeEncryptedKeyFailed, state := k, kmsCalls := 0 }
    | some blob =>
        match kmsDec blob masterKeyARN with
        | none =>
            { res := .error .keyDecryptionFailed, state := k, kmsCalls := 1 }
        | some plaintext =>
            let entry : CachedKey :=
              { Key := plaintext, ExpiresAt := now + k.cacheTTL }
            let cache := insertAssoc k.decryptionCache encryptedKey entry
            { res := .ok plaintext,
              state := { k with decryptionCache := cache },
              kmsCalls := 1 }

/-- `CleanupCache`: remove (and zero) every cache entry with
`now.After(ExpiresAt)`; also returns the number of removed entries. -/
def CleanupCache (k : KMSManager) (now : Nat) : KMSManager × Nat :=
  ({ k with decryptionCache :=
      k.decryptionCache.filter (fun pr => !decide (pr.2.ExpiresAt < now)) },
   (k.decryptionCache.filter (fun pr => decide (pr.2.ExpiresAt < now))).length)

/-! ## Codec service (src/codec-server/main.go, KMS codec server)

The request body has already been parsed: the handlers are modelled from
the payload loop onward. Go's `map[string]string` metadata is a
key-unique association list; indexing a missing key yields the empty
string, as in Go. -/

/-- `shared.PayloadData` of the KMS codec server. -/
structure PayloadData where
  Metadata : List (List Nat × List Nat)
  Data : List Nat
  KMSKeyID : List Nat
  EncryptedDataKey : List Nat
  Algorithm : List Nat
  deriving DecidableEq, Repr

/-- Request-level failures of the two handlers, one constructor per
`http.Error` call site in the payload loops. -/
inductive HttpError where
  | keyRetrievalFailed
  | encryptionFailed
  | missingKeyMaterial
  | keyDecryptionFailed
  | dataDecryptionFailed
  deriving DecidableEq, Repr

/-- The `"encoding"` metadata key. -/
def encodingKey : List Nat := strBytes "encoding"

/-- The `"json/plain"` encoding tag. -/
def jsonPlain : List Nat := strBytes "json/plain"

/-- The `"binary/encrypted"` encoding tag. -/
def binaryEncrypted : List Nat := strBytes "binary/encrypted"

/-- `handleEncode`'s per-payload guard: encrypt when the `"encoding"`
metadata entry is absent or equals `"json/plain"`. -/
def shouldEncrypt (p : PayloadData) : Bool :=
  match List.lookup encodingKey p.Metadata with
  | none => true
  | some enc => enc == jsonPlain

/-- `handleEncode`'s data preparation: empty data stays empty; otherwise
base64-decode if the data parses as base64, else use the raw bytes. -/
def prepareData (data : List Nat) : List Nat :=
  if data = [] then []
  else
    match b64decode data with
    | some decoded => decoded
    | none => data

/-- The payload loop of `handleEncode`. Per iteration a payload passing
`shouldEncrypt` fetches the current data key (rotating if necessary, with
`gen` the KMS `GenerateDataKey` oracle), encrypts the prepared data under
a fresh nonce (one nonce per encrypted payload, drawn from `nonces`), and
appends a payload carrying the ciphertext and key metadata; any failure
aborts the whole request with an `http.Error`. A payload failing the
guard is appended to nothing: the loop body has no else branch. -/
def handleEncode (k : KMSManager) (now : Nat)
    (gen : Option (List Nat × List Nat)) :
    List (List Nat) → List PayloadData →
    Except HttpError (List PayloadData × KMSManager)
  | _, [] => .ok ([], k)
  | nonces, p :: rest =>
    if shouldEncrypt p then
      let got := GetCurrentDataKey k now gen
      match got.res with
      | .error _ => .error .keyRetrievalFailed
      | .ok currentKey =>
        match EncryptWithDataKey (prepareData p.Data) currentKey.PlaintextKey
            (nonces.headD []) with
        | .error _ => .error .encryptionFailed
        | .ok encryptedData =>
          let outPayload : PayloadData :=
            { Metadata := [(encodingKey, binaryEncrypted)],
              Data := encryptedData,
              KMSKeyID := got.state.keyID,
              EncryptedDataKey := currentKey.EncryptedKey,
              Algorithm := strBytes "AES-256-GCM" }
          match handleEncode got.state now gen nonces.tail rest with
          | .error e => .error e
          | .ok (outs, k₁) => .ok (outPayload :: outs, k₁)
    else
      handleEncode k now gen nonces rest

/-- The per-payload body of `handleDecode`. `none` as result means the
payload is passed through unchanged by the caller; a transformed payload
replaces the input. `dec` is the KMS `Decrypt` oracle. -/
def decodePayload (k : KMSManager) (now : Nat)
    (dec : List Nat → List Nat → Option (List Nat)) (p : PayloadData) :
    Except HttpError (PayloadData × KMSManager) :=
  if p.EncryptedDataKey = [] then .error .missingKeyMaterial
  else
    let outcome := DecryptDataKey k now p.EncryptedDataKey p.KMSKeyID dec
    match outcome.res with
    | .error _ => .error .keyDecryptionFailed
    | .ok dataKey =>
      match DecryptWithDataKey p.Data dataKey with
      | .error _ => .error .dataDecryptionFailed
      | .ok decryptedData =>
        .ok ({ Metadata := [(encodingKey, jsonPlain)],
               Data := b64encode decryptedData,
               KMSKeyID := [], EncryptedDataKey := [], Algorithm := [] },
             outcome.state)

/-- The payload loop of `handleDecode`: payloads whose `"encoding"`
metadata (empty string when absent, as for a Go map) differs from
`"binary/encrypted"` are appended as-is; encrypted payloads must carry an
`encrypted_data_key` (else the whole request fails with the
missing-key-material error) and are decrypted via the key manager; any
failure aborts the whole request. -/
def handleDecode (k : KMSManager) (now : Nat)
    (dec : List Nat → List Nat → Option (List Nat)) :
    List PayloadData → Except HttpError (List PayloadData × KMSManager)
  | [] => .ok ([], k)
  | p :: rest =>
    if ((List.lookup encodingKey p.Metadata).getD []) ≠ binaryEncrypted then
      match handleDecode k now dec rest with
      | .error e => .error e
      | .ok (outs, k₁) => .ok (p :: outs, k₁)
    else
      match decodePayload k now dec p with
      | .error e => .error e
      | .ok (outPayload, k₁) =>
        match handleDecode k₁ now dec rest with
        | .error e => .error e
        | .ok (outs, k₂) => .ok (outPayload :: outs, k₂)

/-! ## Claims -/

theorem sealBytes_lt (key nonce data : List Nat) :
    ∀ b ∈ sealBytes key nonce data, b < 256 := by
  intro b hbmem
  rcases List.mem_append.1 hbmem with h | h
  · exact maskBytes_lt key nonce 0 data b h
  · exact gcmTag_lt key nonce _ b h

theorem sealBytes_length (key nonce data : List Nat) :
    (sealBytes key nonce data).length = data.length + tagSize := by
  simp [sealBytes, maskBytes_length, gcmTag_length]

/-- C1: for every 32-byte key and byte sequence, decrypting the result of
`EncryptWithDataKey` with the same key succeeds and returns the original
bytes. The fresh 12-byte nonce drawn inside the Go function is an
explicit argument here. -/
theorem C1_encrypt_decrypt_roundtrip (p key nonce c : List Nat)
    (hkey : key.length = 32) (hnonce : nonce.length = nonceSize)
    (hp : ∀ b ∈ p, b < 256) (hn : ∀ b ∈ nonce, b < 256)
    (henc : EncryptWithDataKey p key nonce = .ok c) :
    DecryptWithDataKey c key = .ok p := by
  unfold EncryptWithDataKey at henc
  rw [if_neg (by omega)] at henc
  have hc : c = b64encode (nonce ++ sealBytes key nonce p) := by
    cases henc
    rfl
  have hbytes : ∀ b ∈ nonce ++ sealBytes key nonce p, b < 256 := by
    intro b hbmem
    rcases List.mem_append.1 hbmem with h | h
    · exact hn b h
    · exact sealBytes_lt key nonce p b h
  unfold DecryptWithDataKey
  rw [if_neg (by omega), hc, b64decode_encode _ hbytes]
  have hlen : (nonce ++ sealBytes key nonce p).length
      = nonceSize + (p.length + tagSize) := by
    simp [hnonce, sealBytes_length]
  have hnl : ¬ ((nonce ++ sealBytes key nonce p).length < nonceSize) := by
    omega
  have htake : (nonce ++ sealBytes key nonce p).take nonceSize = nonce := by
    rw [← hnonce]
    exact List.take_left _ _
  have hdrop : (nonce ++ sealBytes key nonce p).drop nonceSize
      = sealBytes key nonce p := by
    rw [← hnonce]
    exact List.drop_left _ _
  simp only [if_neg hnl, htake, hdrop, openBytes_sealBytes key nonce p hp]

/-- C1 witness: a concrete round trip through the envelope cipher. -/
theorem C1_encrypt_decrypt_roundtrip_witness :
    DecryptWithDataKey
      (b64encode (List.replicate 12 3 ++
        sealBytes (List.replicate 32 7) (List.replicate 12 3) [72, 105]))
      (List.replicate 32 7) = .ok [72, 105] :=
  C1_encrypt_decrypt_roundtrip [72, 105] (List.replicate 32 7)
    (List.replicate 12 3) _ (by decide) (by decide) (by decide) (by decide)
    rfl

/-- C8: both envelope cipher operations fail with the invalid-key-length
error exactly when the key is not 32 bytes; with a 32-byte key neither
operation ever raises it. -/
theorem C8_invalid_key_length_iff (data key nonce encodedData : List Nat) :
    (EncryptWithDataKey data key nonce = .error .invalidKeyLength
      ↔ key.length ≠ 32)
    ∧ (DecryptWithDataKey encodedData key = .error .invalidKeyLength
      ↔ key.length ≠ 32) := by
  constructor
  · by_cases h : key.length = 32
    · simp [EncryptWithDataKey, h]
    · simp [EncryptWithDataKey, h]
  · by_cases h : key.length = 32
    · simp only [DecryptWithDataKey, h]
      rw [if_neg (by omega)]
      constructor
      · intro habs
        exfalso
        revert habs
        split
        · simp
        · split
          · simp
          · split <;> simp
      · intro habs
        exact absurd rfl habs
    · simp [DecryptWithDataKey, h]

/-- C5: with a current key installed, a `GetCurrentDataKey` call that
triggers rotation while the external `GenerateDataKey` call errors
returns the key-generation-failed error and leaves the manager state —
in particular the current key with all four fields — unchanged, even
though the old key is past its expiry. -/
theorem C5_failed_rotation_keeps_old_key (k : KMSManager)
    (c : CurrentDataKey) (now : Nat)
    (hcur : k.currentDataKey = some c) (hexp : c.ExpiresAt < now) :
    (GetCurrentDataKey k now none).res = .error .keyGenerationFailed
    ∧ (GetCurrentDataKey k now none).state = k := by
  simp [GetCurrentDataKey, rotateDataKeyLocked, hcur, hexp]

/-- C5 witness: a concrete expired key surviving a failed rotation. -/
theorem C5_failed_rotation_keeps_old_key_witness :
    (GetCurrentDataKey
      { keyID := strBytes "arn", currentDataKey :=
          some { PlaintextKey := List.replicate 32 1,
                 EncryptedKey := strBytes "QUJD", GeneratedAt := 0,
                 ExpiresAt := 5 },
        decryptionCache := [], cacheTTL := 10, keyRotationInterval := 10 }
      6 none).res = .error .keyGenerationFailed
    ∧ (GetCurrentDataKey
      { keyID := strBytes "arn", currentDataKey :=
          some { PlaintextKey := List.replicate 32 1,
                 EncryptedKey := strBytes "QUJD", GeneratedAt := 0,
                 ExpiresAt := 5 },
        decryptionCache := [], cacheTTL := 10, keyRotationInterval := 10 }
      6 none).state =
      { keyID := strBytes "arn", currentDataKey :=
          some { PlaintextKey := List.replicate 32 1,
                 EncryptedKey := strBytes "QUJD", GeneratedAt := 0,
                 ExpiresAt := 5 },
        decryptionCache := [], cacheTTL := 10, keyRotationInterval := 10 } :=
  C5_failed_rotation_keeps_old_key _
    { PlaintextKey := List.replicate 32 1, EncryptedKey := strBytes "QUJD",
      GeneratedAt := 0, ExpiresAt := 5 } 6 rfl (by decide)

/-- C6: with a current key installed, a successful rotation installs a
key whose encrypted blob (assuming the external KMS wrapped the new key
into a blob distinct from the old one) differs from the pre-rotation
blob, whose expiry equals its generation time plus the configured
rotation interval, and `GetCurrentDataKey` then returns that key; every
byte of the pre-rotation plaintext buffer has been zeroed in place. -/
theorem C6_rotation_installs_fresh_key (k : KMSManager)
    (old : CurrentDataKey) (now : Nat) (pt blob : List Nat)
    (gen₂ : Option (List Nat × List Nat))
    (hcur : k.currentDataKey = some old)
    (hfresh : b64encode blob ≠ old.EncryptedKey) :
    ∃ newKey : CurrentDataKey,
      (rotateDataKeyLocked k now (some (pt, blob))).res = .ok newKey
      ∧ (GetCurrentDataKey (rotateDataKeyLocked k now (some (pt, blob))).state
          now gen₂).res = .ok newKey
      ∧ newKey.EncryptedKey ≠ old.EncryptedKey
      ∧ newKey.ExpiresAt = newKey.GeneratedAt + k.keyRotationInterval
      ∧ ∃ buf, (rotateDataKeyLocked k now (some (pt, blob))).oldKeyBuf
            = some buf
          ∧ buf.length = old.PlaintextKey.length ∧ ∀ b ∈ buf, b = 0 := by
  refine ⟨{ PlaintextKey := pt, EncryptedKey := b64encode blob,
            GeneratedAt := now,
            ExpiresAt := now + k.keyRotationInterval },
    rfl, ?_, hfresh, rfl, ?_⟩
  · have hnx : ¬ (now + k.keyRotationInterval < now) := by omega
    simp [GetCurrentDataKey, rotateDataKeyLocked, hnx]
  · refine ⟨List.replicate old.PlaintextKey.length 0, ?_, by simp, ?_⟩
    · simp [rotateDataKeyLocked, hcur]
    · intro b hbmem
      exact List.eq_of_mem_replicate hbmem

/-- C6 witness: a concrete successful rotation. -/
theorem C6_rotation_installs_fresh_key_witness :
    ∃ newKey : CurrentDataKey,
      (rotateDataKeyLocked
        { keyID := strBytes "arn", currentDataKey :=
            some { PlaintextKey := List.replicate 32 1,
                   EncryptedKey := strBytes "QUJD", GeneratedAt := 0,
                   ExpiresAt := 5 },
          decryptionCache := [], cacheTTL := 10, keyRotationInterval := 10 }
        6 (some (List.replicate 32 2, [1, 2, 3]))).res = .ok newKey
      ∧ (GetCurrentDataKey (rotateDataKeyLocked
          { keyID := strBytes "arn", currentDataKey :=
              some { PlaintextKey := List.replicate 32 1,
                     EncryptedKey := strBytes "QUJD", GeneratedAt := 0,
                     ExpiresAt := 5 },
            decryptionCache := [], cacheTTL := 10, keyRotationInterval := 10 }
          6 (some (List.replicate 32 2, [1, 2, 3]))).state 6 none).res
          = .ok newKey
      ∧ newKey.EncryptedKey ≠ strBytes "QUJD"
      ∧ newKey.ExpiresAt = newKey.GeneratedAt + 10
      ∧ ∃ buf, (rotateDataKeyLocked
          { keyID := strBytes "arn", currentDataKey :=
              some { PlaintextKey := List.replicate 32 1,
                     EncryptedKey := strBytes "QUJD", GeneratedAt := 0,
                     ExpiresAt := 5 },
            decryptionCache := [], cacheTTL := 10, keyRotationInterval := 10 }
          6 (some (List.replicate 32 2, [1, 2, 3]))).oldKeyBuf = some buf
          ∧ buf.length = (List.replicate 32 (1 : Nat)).length
          ∧ ∀ b ∈ buf, b = 0 :=
  C6_rotation_installs_fresh_key _
    { PlaintextKey := List.replicate 32 1, EncryptedKey := strBytes "QUJD",
      GeneratedAt := 0, ExpiresAt := 5 } 6 (List.replicate 32 2) [1, 2, 3]
    none rfl (by decide)

/-- C2: demonstration of the cache-key mismatch in `DecryptDataKey`. The
first call for blob `"QUJD"` under master key `"arn"` goes to external
KMS and stores the result in the cache under `"QUJD"`; the second call
for the same blob within the cache TTL looks up `"QUJD:arn"`, misses,
and issues a second external KMS call — the claim requires zero. -/
theorem C2_repeat_decrypt_still_calls_kms :
    (DecryptDataKey
      { keyID := strBytes "arn", currentDataKey := none,
        decryptionCache := [], cacheTTL := 100, keyRotationInterval := 10 }
      0 (strBytes "QUJD") (strBytes "arn")
      (fun _ _ => some (List.replicate 32 9))).kmsCalls = 1
    ∧ (DecryptDataKey
      { keyID := strBytes "arn", currentDataKey := none,
        decryptionCache := [], cacheTTL := 100, keyRotationInterval := 10 }
      0 (strBytes "QUJD") (strBytes "arn")
      (fun _ _ => some (List.replicate 32 9))).state.decryptionCache
      = [(strBytes "QUJD", { Key := List.replicate 32 9, ExpiresAt := 100 })]
    ∧ (DecryptDataKey
        (DecryptDataKey
          { keyID := strBytes "arn", currentDataKey := none,
            decryptionCache := [], cacheTTL := 100, keyRotationInterval := 10 }
          0 (strBytes "QUJD") (strBytes "arn")
          (fun _ _ => some (List.replicate 32 9))).state
        1 (strBytes "QUJD") (strBytes "arn")
        (fun _ _ => some (List.replicate 32 9))).kmsCalls = 1 :=
  ⟨rfl, by decide, rfl⟩

/-- C7 counterexample: a `DecryptDataKey` read that finds an expired
cache entry (stored under the lookup key `"QUJD:arn"`) does go to
external KMS, but the expired entry is still in the cache after the
call — the read does not remove it. -/
theorem C7_read_does_not_remove_expired_entry :
    (DecryptDataKey
      { keyID := strBytes "arn", currentDataKey := none,
        decryptionCache :=
          [(strBytes "QUJD:arn", { Key := List.replicate 32 4, ExpiresAt := 5 })],
        cacheTTL := 100, keyRotationInterval := 10 }
      10 (strBytes "QUJD") (strBytes "arn")
      (fun _ _ => some (List.replicate 32 9))).kmsCalls = 1
    ∧ List.lookup (strBytes "QUJD:arn")
      (DecryptDataKey
        { keyID := strBytes "arn", currentDataKey := none,
          decryptionCache :=
            [(strBytes "QUJD:arn", { Key := List.replicate 32 4, ExpiresAt := 5 })],
          cacheTTL := 100, keyRotationInterval := 10 }
        10 (strBytes "QUJD") (strBytes "arn")
        (fun _ _ => some (List.replicate 32 9))).state.decryptionCache
      = some { Key := List.replicate 32 4, ExpiresAt := 5 } :=
  ⟨rfl, by decide⟩

theorem lookup_filter_expired (l : List (List Nat × CachedKey))
    (key : List Nat) (now : Nat)
    (h : ∀ e, (key, e) ∈ l → e.ExpiresAt < now) :
    List.lookup key (l.filter (fun pr => !decide (pr.2.ExpiresAt < now)))
      = none := by
  induction l with
  | nil => rfl
  | cons pr rest ih =>
      obtain ⟨a, b⟩ := pr
      have ih₁ := ih (fun e hm => h e (List.mem_cons_of_mem _ hm))
      rw [List.filter_cons]
      by_cases hbe : b.ExpiresAt < now
      · rw [if_neg (by simp [hbe])]
        exact ih₁
      · rw [if_pos (by simp [hbe])]
        have hak : a ≠ key := by
          intro hk
          subst hk
          exact hbe (h b (List.mem_cons_self _ _))
        have hka : (key == a) = false := beq_false_of_ne (Ne.symm hak)
        rw [List.lookup_cons, hka]
        exact ih₁

/-- C7 amended: a `DecryptDataKey` call finding only an expired cache
entry for its lookup key treats it as absent — the stale plaintext is
not returned and the call proceeds to an external KMS decrypt — but the
read itself does not remove the entry; the expired entry is removed by
the periodic `CleanupCache` sweep. -/
theorem C7_expired_entry_treated_absent_and_swept (k : KMSManager)
    (now : Nat) (encryptedKey masterKeyARN raw : List Nat)
    (entry : CachedKey) (dec : List Nat → List Nat → Option (List Nat))
    (hnotcur : ∀ c, k.currentDataKey = some c →
      c.EncryptedKey ≠ encryptedKey)
    (hlook : List.lookup (encryptedKey ++ [58] ++ masterKeyARN)
      k.decryptionCache = some entry)
    (hexp : entry.ExpiresAt < now)
    (hall : ∀ e, (encryptedKey ++ [58] ++ masterKeyARN, e)
      ∈ k.decryptionCache → e.ExpiresAt < now)
    (hdecode : b64decode encryptedKey = some raw) :
    (DecryptDataKey k now encryptedKey masterKeyARN dec).kmsCalls = 1
    ∧ List.lookup (encryptedKey ++ [58] ++ masterKeyARN)
        ((CleanupCache k now).1.decryptionCache) = none := by
  constructor
  · have hcurb :
        (match k.currentDataKey with
          | some c => c.EncryptedKey == encryptedKey
          | none => false) = false := by
      cases hc : k.currentDataKey with
      | none => rfl
      | some c => exact beq_false_of_ne (hnotcur c hc)
    have hnb : ¬ (now < entry.ExpiresAt) := by omega
    simp only [DecryptDataKey, hcurb, Bool.false_eq_true, if_false, hlook,
      hnb, if_false, DecryptDataKey.decryptViaKMS, hdecode]
    cases dec raw masterKeyARN <;> rfl
  · exact lookup_filter_expired k.decryptionCache _ now hall

/-- C7 amended witness: the concrete expired entry is gone after a
`CleanupCache` sweep while the read went external. -/
theorem C7_expired_entry_treated_absent_and_swept_witness :
    (DecryptDataKey
      { keyID := strBytes "k1", currentDataKey := none,
        decryptionCache :=
          [(strBytes "QUJE:k1", { Key := List.replicate 32 4, ExpiresAt := 5 })],
        cacheTTL := 100, keyRotationInterval := 10 }
      10 (strBytes "QUJE") (strBytes "k1")
      (fun _ _ => some (List.replicate 32 9))).kmsCalls = 1
    ∧ List.lookup (strBytes "QUJE" ++ [58] ++ strBytes "k1")
        ((CleanupCache
          { keyID := strBytes "k1", currentDataKey := none,
            decryptionCache :=
              [(strBytes "QUJE:k1", { Key := List.replicate 32 4, ExpiresAt := 5 })],
            cacheTTL := 100, keyRotationInterval := 10 }
          10).1.decryptionCache) = none := by
  have h := C7_expired_entry_treated_absent_and_swept
    { keyID := strBytes "k1", currentDataKey := none,
      decryptionCache :=
        [(strBytes "QUJE:k1", { Key := List.replicate 32 4, ExpiresAt := 5 })],
      cacheTTL := 100, keyRotationInterval := 10 }
    10 (strBytes "QUJE") (strBytes "k1") [65, 66, 68]
    { Key := List.replicate 32 4, ExpiresAt := 5 }
    (fun _ _ => some (List.replicate 32 9))
    (by intro c hc; cases hc) (by decide) (by decide)
    (by
      intro e hm
      rw [List.mem_singleton, Prod.mk.injEq] at hm
      rw [hm.2]
      decide)
    (by decide)
  exact h

/-- C3: demonstration that `handleEncode` drops payloads carrying any
other encoding. A batch holding a single payload whose `"encoding"`
metadata entry is `"binary/encrypted"` produces an empty response batch:
the loop body has no else branch, so the payload does not appear in the
response at all, unchanged or otherwise. -/
theorem C3_other_encoding_payload_dropped :
    handleEncode
      { keyID := strBytes "arn", currentDataKey := none,
        decryptionCache := [], cacheTTL := 100, keyRotationInterval := 10 }
      0 none []
      [{ Metadata := [(encodingKey, binaryEncrypted)],
         Data := strBytes "QUJD", KMSKeyID := [], EncryptedDataKey := [],
         Algorithm := [] }]
      = .ok ([],
        { keyID := strBytes "arn", currentDataKey := none,
          decryptionCache := [], cacheTTL := 100,
          keyRotationInterval := 10 }) := by
  rfl

/-- C4: if some payload in a decode batch has encoding
`"binary/encrypted"` and an empty `encrypted_data_key`, and the payloads
before it process successfully, the whole request fails with the
missing-key-material error and no payloads at all are returned,
regardless of the other payloads in the batch. -/
theorem C4_missing_key_material_aborts_batch (k k₁ : KMSManager)
    (now : Nat) (dec : List Nat → List Nat → Option (List Nat))
    (pre : List PayloadData) (p : PayloadData) (post : List PayloadData)
    (outs : List PayloadData)
    (hpre : handleDecode k now dec pre = .ok (outs, k₁))
    (henc : (List.lookup encodingKey p.Metadata).getD [] = binaryEncrypted)
    (hmissing : p.EncryptedDataKey = []) :
    handleDecode k now dec (pre ++ p :: post)
      = .error .missingKeyMaterial := by
  induction pre generalizing k outs with
  | nil =>
      simp only [List.nil_append, handleDecode, henc]
      rw [if_neg (by simp)]
      simp [decodePayload, hmissing]
  | cons q pre ih =>
      rw [List.cons_append]
      unfold handleDecode at hpre ⊢
      by_cases hq : ((List.lookup encodingKey q.Metadata).getD [])
          ≠ binaryEncrypted
      · rw [if_pos hq] at hpre ⊢
        cases h1 : handleDecode k now dec pre with
        | error e => rw [h1] at hpre; simp at hpre
        | ok r =>
            obtain ⟨o₁, ka⟩ := r
            rw [h1] at hpre
            simp only [Except.ok.injEq, Prod.mk.injEq] at hpre
            rw [ih k o₁ (by rw [h1, hpre.2])]
      · rw [if_neg hq] at hpre ⊢
        revert hpre
        cases hd : decodePayload k now dec q with
        | error e =>
            intro hpre
            simp at hpre
        | ok r =>
            obtain ⟨q₁, ka⟩ := r
            intro hpre
            simp only at hpre ⊢
            cases h1 : handleDecode ka now dec pre with
            | error e => rw [h1] at hpre; simp at hpre
            | ok r2 =>
                obtain ⟨o₁, kb⟩ := r2
                rw [h1] at hpre
                simp only [Except.ok.injEq, Prod.mk.injEq] at hpre
                rw [ih ka o₁ (by rw [h1, hpre.2])]

/-- C4 witness: a concrete three-payload batch where the middle payload
is encrypted but carries no key material. -/
theorem C4_missing_key_material_aborts_batch_witness :
    handleDecode
      { keyID := strBytes "arn", currentDataKey := none,
        decryptionCache := [], cacheTTL := 100, keyRotationInterval := 10 }
      0 (fun _ _ => none)
      ([{ Metadata := [(encodingKey, jsonPlain)], Data := strBytes "QUJD",
          KMSKeyID := [], EncryptedDataKey := [], Algorithm := [] }] ++
        { Metadata := [(encodingKey, binaryEncrypted)], Data := [],
          KMSKeyID := [], EncryptedDataKey := [], Algorithm := [] } ::
        [{ Metadata := [(encodingKey, jsonPlain)], Data := strBytes "QUJE",
           KMSKeyID := [], EncryptedDataKey := [], Algorithm := [] }])
      = .error .missingKeyMaterial :=
  C4_missing_key_material_aborts_batch _ _ 0 (fun _ _ => none)
    [{ Metadata := [(encodingKey, jsonPlain)], Data := strBytes "QUJD",
       KMSKeyID := [], EncryptedDataKey := [], Algorithm := [] }]
    { Metadata := [(encodingKey, binaryEncrypted)], Data := [],
      KMSKeyID := [], EncryptedDataKey := [], Algorithm := [] }
    [{ Metadata := [(encodingKey, jsonPlain)], Data := strBytes "QUJE",
       KMSKeyID := [], EncryptedDataKey := [], Algorithm := [] }]
    [{ Metadata := [(encodingKey, jsonPlain)], Data := strBytes "QUJD",
       KMSKeyID := [], EncryptedDataKey := [], Algorithm := [] }]
    rfl (by decide) rfl

/-- `GetCurrentDataKey` with an unexpired current key returns it and
leaves the state untouched. -/
theorem getCurrentDataKey_valid (k : KMSManager) (c : CurrentDataKey)
    (now : Nat) (gen : Option (List Nat × List Nat))
    (hcur : k.currentDataKey = some c) (hvalid : ¬ (c.ExpiresAt < now)) :
    GetCurrentDataKey k now gen = { res := .ok c, state := k } := by
  simp [GetCurrentDataKey, hcur, hvalid]

/-- C9: with an unexpired current key installed, a non-empty master key
id and a non-empty current encrypted blob, every payload in a successful
encode response carries encoding `"binary/encrypted"`, the manager's
master key id, the current key's encrypted blob and the
`"AES-256-GCM"` algorithm tag — all the key metadata a future decode
needs, independently of the cache. -/
theorem C9_encrypted_payload_carries_key_metadata
    (k k₁ : KMSManager) (c : CurrentDataKey) (now : Nat)
    (gen : Option (List Nat × List Nat)) (nonces : List (List Nat))
    (payloads outs : List PayloadData)
    (hcur : k.currentDataKey = some c) (hvalid : ¬ (c.ExpiresAt < now))
    (hkeyid : k.keyID ≠ []) (hblob : c.EncryptedKey ≠ [])
    (hrun : handleEncode k now gen nonces payloads = .ok (outs, k₁)) :
    ∀ q ∈ outs,
      List.lookup encodingKey q.Metadata = some binaryEncrypted
      ∧ q.KMSKeyID ≠ [] ∧ q.KMSKeyID = k.keyID
      ∧ q.EncryptedDataKey ≠ []
      ∧ q.EncryptedDataKey = c.EncryptedKey
      ∧ q.Algorithm = strBytes "AES-256-GCM" := by
  induction payloads generalizing nonces outs with
  | nil =>
      simp only [handleEncode, Except.ok.injEq, Prod.mk.injEq] at hrun
      rw [← hrun.1]
      simp
  | cons p rest ih =>
      simp only [handleEncode] at hrun
      by_cases hp : shouldEncrypt p = true
      · rw [if_pos hp, getCurrentDataKey_valid k c now gen hcur hvalid]
          at hrun
        simp only at hrun
        revert hrun
        cases henc2 : EncryptWithDataKey (prepareData p.Data) c.PlaintextKey
            (nonces.headD []) with
        | error e =>
            intro hrun
            simp at hrun
        | ok ed =>
            intro hrun
            simp only at hrun
            revert hrun
            cases h1 : handleEncode k now gen nonces.tail rest with
            | error e =>
                intro hrun
                simp at hrun
            | ok r =>
                obtain ⟨o₁, ka⟩ := r
                intro hrun
                simp only [Except.ok.injEq, Prod.mk.injEq] at hrun
                intro q hq
                rw [← hrun.1] at hq
                rcases List.mem_cons.1 hq with rfl | hq2
                · exact ⟨by simp, hkeyid, rfl, hblob, rfl, rfl⟩
                · exact ih nonces.tail o₁ (by rw [h1, hrun.2]) q hq2
      · rw [if_neg hp] at hrun
        exact ih nonces outs hrun

/-- C9 witness: a concrete one-payload encode run. -/
theorem C9_encrypted_payload_carries_key_metadata_witness :
    List.lookup encodingKey
      ({ Metadata := [(encodingKey, binaryEncrypted)],
         Data := b64encode (List.replicate 12 2 ++
           sealBytes (List.replicate 32 1) (List.replicate 12 2) []),
         KMSKeyID := strBytes "arn",
         EncryptedDataKey := strBytes "QUJD",
         Algorithm := strBytes "AES-256-GCM" } : PayloadData).Metadata
      = some binaryEncrypted
    ∧ ({ Metadata := [(encodingKey, binaryEncrypted)],
         Data := b64encode (List.replicate 12 2 ++
           sealBytes (List.replicate 32 1) (List.replicate 12 2) []),
         KMSKeyID := strBytes "arn",
         EncryptedDataKey := strBytes "QUJD",
         Algorithm := strBytes "AES-256-GCM" } : PayloadData).KMSKeyID ≠ []
    ∧ ({ Metadata := [(encodingKey, binaryEncrypted)],
         Data := b64encode (List.replicate 12 2 ++
           sealBytes (List.replicate 32 1) (List.replicate 12 2) []),
         KMSKeyID := strBytes "arn",
         EncryptedDataKey := strBytes "QUJD",
         Algorithm := strBytes "AES-256-GCM" } : PayloadData).KMSKeyID =
        ({ keyID := strBytes "arn",
           currentDataKey :=
             some { PlaintextKey := List.replicate 32 1,
                    EncryptedKey := strBytes "QUJD", GeneratedAt := 0,
                    ExpiresAt := 100 },
           decryptionCache := [], cacheTTL := 100,
           keyRotationInterval := 10 } : KMSManager).keyID
    ∧ ({ Metadata := [(encodingKey, binaryEncrypted)],
         Data := b64encode (List.replicate 12 2 ++
           sealBytes (List.replicate 32 1) (List.replicate 12 2) []),
         KMSKeyID := strBytes "arn",
         EncryptedDataKey := strBytes "QUJD",
         Algorithm := strBytes "AES-256-GCM" } : PayloadData).EncryptedDataKey
        ≠ []
    ∧ ({ Metadata := [(encodingKey, binaryEncrypted)],
         Data := b64encode (List.replicate 12 2 ++
           sealBytes (List.replicate 32 1) (List.replicate 12 2) []),
         KMSKeyID := strBytes "arn",
         EncryptedDataKey := strBytes "QUJD",
         Algorithm := strBytes "AES-256-GCM" } : PayloadData).EncryptedDataKey
        = ({ PlaintextKey := List.replicate 32 1,
             EncryptedKey := strBytes "QUJD", GeneratedAt := 0,
             ExpiresAt := 100 } : CurrentDataKey).EncryptedKey
    ∧ ({ Metadata := [(encodingKey, binaryEncrypted)],
         Data := b64encode (List.replicate 12 2 ++
           sealBytes (List.replicate 32 1) (List.replicate 12 2) []),
         KMSKeyID := strBytes "arn",
         EncryptedDataKey := strBytes "QUJD",
         Algorithm := strBytes "AES-256-GCM" } : PayloadData).Algorithm
        = strBytes "AES-256-GCM" :=
  C9_encrypted_payload_carries_key_metadata
    { keyID := strBytes "arn",
      currentDataKey :=
        some { PlaintextKey := List.replicate 32 1,
               EncryptedKey := strBytes "QUJD", GeneratedAt := 0,
               ExpiresAt := 100 },
      decryptionCache := [], cacheTTL := 100, keyRotationInterval := 10 }
    { keyID := strBytes "arn",
      currentDataKey :=
        some { PlaintextKey := List.replicate 32 1,
               EncryptedKey := strBytes "QUJD", GeneratedAt := 0,
               ExpiresAt := 100 },
      decryptionCache := [], cacheTTL := 100, keyRotationInterval := 10 }
    { PlaintextKey := List.replicate 32 1, EncryptedKey := strBytes "QUJD",
      GeneratedAt := 0, ExpiresAt := 100 }
    0 none [List.replicate 12 2]
    [{ Metadata := [], Data := [], KMSKeyID := [], EncryptedDataKey := [],
       Algorithm := [] }]
    [{ Metadata := [(encodingKey, binaryEncrypted)],
       Data := b64encode (List.replicate 12 2 ++
         sealBytes (List.replicate 32 1) (List.replicate 12 2) []),
       KMSKeyID := strBytes "arn", EncryptedDataKey := strBytes "QUJD",
       Algorithm := strBytes "AES-256-GCM" }]
    rfl (by decide) (by decide) (by decide) rfl
    { Metadata := [(encodingKey, binaryEncrypted)],
      Data := b64encode (List.replicate 12 2 ++
        sealBytes (List.replicate 32 1) (List.replicate 12 2) []),
      KMSKeyID := strBytes "arn", EncryptedDataKey := strBytes "QUJD",
      Algorithm := strBytes "AES-256-GCM" }
    (by simp)

/-- C10: every payload actually transformed by `handleEncode` carries a
metadata map holding exactly the one entry
`"encoding" ↦ "binary/encrypted"` (any other input metadata entry is
absent from the output), and every payload transformed by the decode
body carries exactly `"encoding" ↦ "json/plain"` together with empty
`kms_key_id`, `encrypted_data_key` and `algorithm` fields. -/
theorem C10_transformed_payload_metadata_exact :
    (∀ (k k₁ : KMSManager) (now : Nat)
      (gen : Option (List Nat × List Nat)) (nonces : List (List Nat))
      (payloads outs : List PayloadData),
      handleEncode k now gen nonces payloads = .ok (outs, k₁) →
      ∀ q ∈ outs, q.Metadata = [(encodingKey, binaryEncrypted)])
    ∧ (∀ (k k₁ : KMSManager) (now : Nat)
      (dec : List Nat → List Nat → Option (List Nat))
      (p q : PayloadData),
      decodePayload k now dec p = .ok (q, k₁) →
      q.Metadata = [(encodingKey, jsonPlain)] ∧ q.KMSKeyID = []
      ∧ q.EncryptedDataKey = [] ∧ q.Algorithm = []) := by
  constructor
  · intro k k₁ now gen nonces payloads
    induction payloads generalizing k nonces with
    | nil =>
        intro outs hrun
        simp only [handleEncode, Except.ok.injEq, Prod.mk.injEq] at hrun
        rw [← hrun.1]
        simp
    | cons p rest ih =>
        intro outs hrun
        simp only [handleEncode] at hrun
        by_cases hp : shouldEncrypt p = true
        · rw [if_pos hp] at hrun
          revert hrun
          cases hres : (GetCurrentDataKey k now gen).res with
          | error e =>
              intro hrun
              simp at hrun
          | ok ck =>
              intro hrun
              simp only at hrun
              revert hrun
              cases henc2 : EncryptWithDataKey (prepareData p.Data)
                  ck.PlaintextKey (nonces.headD []) with
              | error e =>
                  intro hrun
                  simp at hrun
              | ok ed =>
                  intro hrun
                  simp only at hrun
                  revert hrun
                  cases h1 : handleEncode (GetCurrentDataKey k now gen).state
                      now gen nonces.tail rest with
                  | error e =>
                      intro hrun
                      simp at hrun
                  | ok r =>
                      obtain ⟨o₁, ka⟩ := r
                      intro hrun
                      simp only [Except.ok.injEq, Prod.mk.injEq] at hrun
                      intro q hq
                      rw [← hrun.1] at hq
                      rcases List.mem_cons.1 hq with rfl | hq2
                      · rfl
                      · exact ih _ nonces.tail o₁
                          (by rw [h1, hrun.2]) q hq2
        · rw [if_neg hp] at hrun
          exact ih k nonces outs hrun
  · intro k k₁ now dec p q hd
    simp only [decodePayload] at hd
    by_cases hek : p.EncryptedDataKey = []
    · rw [if_pos hek] at hd
      simp at hd
    · rw [if_neg hek] at hd
      revert hd
      cases hres : (DecryptDataKey k now p.EncryptedDataKey p.KMSKeyID
          dec).res with
      | error e =>
          intro hd
          simp at hd
      | ok dataKey =>
          intro hd
          simp only at hd
          revert hd
          cases hdec2 : DecryptWithDataKey p.Data dataKey with
          | error e =>
              intro hd
              simp at hd
          | ok d =>
              intro hd
              simp only [Except.ok.injEq, Prod.mk.injEq] at hd
              rw [← hd.1]
              exact ⟨rfl, rfl, rfl, rfl⟩

/-- C10 witness: a concrete encode run and a concrete decode-body run. -/
theorem C10_transformed_payload_metadata_exact_witness :
    ({ Metadata := [(encodingKey, binaryEncrypted)],
       Data := b64encode (List.replicate 12 2 ++
         sealBytes (List.replicate 32 1) (List.replicate 12 2) []),
       KMSKeyID := strBytes "arn",
       EncryptedDataKey := strBytes "QUJD",
       Algorithm := strBytes "AES-256-GCM" } : PayloadData).Metadata
      = [(encodingKey, binaryEncrypted)]
    ∧ (({ Metadata := [(encodingKey, jsonPlain)], Data := b64encode [65],
          KMSKeyID := [], EncryptedDataKey := [],
          Algorithm := [] } : PayloadData).Metadata
          = [(encodingKey, jsonPlain)]
      ∧ ({ Metadata := [(encodingKey, jsonPlain)], Data := b64encode [65],
           KMSKeyID := [], EncryptedDataKey := [],
           Algorithm := [] } : PayloadData).KMSKeyID = []
      ∧ ({ Metadata := [(encodingKey, jsonPlain)], Data := b64encode [65],
           KMSKeyID := [], EncryptedDataKey := [],
           Algorithm := [] } : PayloadData).EncryptedDataKey = []
      ∧ ({ Metadata := [(encodingKey, jsonPlain)], Data := b64encode [65],
           KMSKeyID := [], EncryptedDataKey := [],
           Algorithm := [] } : PayloadData).Algorithm = []) :=
  ⟨C10_transformed_payload_metadata_exact.1
    { keyID := strBytes "arn",
      currentDataKey :=
        some { PlaintextKey := List.replicate 32 1,
               EncryptedKey := strBytes "QUJD", GeneratedAt := 0,
               ExpiresAt := 100 },
      decryptionCache := [], cacheTTL := 100, keyRotationInterval := 10 }
    { keyID := strBytes "arn",
      currentDataKey :=
        some { PlaintextKey := List.replicate 32 1,
               EncryptedKey := strBytes "QUJD", GeneratedAt := 0,
               ExpiresAt := 100 },
      decryptionCache := [], cacheTTL := 100, keyRotationInterval := 10 }
    0 none [List.replicate 12 2]
    [{ Metadata := [], Data := [], KMSKeyID := [], EncryptedDataKey := [],
       Algorithm := [] }]
    [{ Metadata := [(encodingKey, binaryEncrypted)],
       Data := b64encode (List.replicate 12 2 ++
         sealBytes (List.replicate 32 1) (List.replicate 12 2) []),
       KMSKeyID := strBytes "arn", EncryptedDataKey := strBytes "QUJD",
       Algorithm := strBytes "AES-256-GCM" }]
    rfl
    { Metadata := [(encodingKey, binaryEncrypted)],
      Data := b64encode (List.replicate 12 2 ++
        sealBytes (List.replicate 32 1) (List.replicate 12 2) []),
      KMSKeyID := strBytes "arn", EncryptedDataKey := strBytes "QUJD",
      Algorithm := strBytes "AES-256-GCM" }
    (by simp),
  C10_transformed_payload_metadata_exact.2
    { keyID := strBytes "arn",
      currentDataKey :=
        some { PlaintextKey := List.replicate 32 1,
               EncryptedKey := strBytes "QUJD", GeneratedAt := 0,
               ExpiresAt := 100 },
      decryptionCache := [], cacheTTL := 100, keyRotationInterval := 10 }
    { keyID := strBytes "arn",
      currentDataKey :=
        some { PlaintextKey := List.replicate 32 1,
               EncryptedKey := strBytes "QUJD", GeneratedAt := 0,
               ExpiresAt := 100 },
      decryptionCache := [], cacheTTL := 100, keyRotationInterval := 10 }
    0 (fun _ _ => none)
    { Metadata := [(encodingKey, binaryEncrypted)],
      Data := b64encode (List.replicate 12 2 ++
        sealBytes (List.replicate 32 1) (List.replicate 12 2) [65]),
      KMSKeyID := strBytes "arn", EncryptedDataKey := strBytes "QUJD",
      Algorithm := strBytes "AES-256-GCM" }
    { Metadata := [(encodingKey, jsonPlain)], Data := b64encode [65],
      KMSKeyID := [], EncryptedDataKey := [], Algorithm := [] }
    rfl⟩
